import Mathlib

/-!
Verification of the protocol / state logic of the YewChat client
(`src/components/chat.rs`): the envelope codec (`WebSocketMessage`,
`MessageData` with their serde-derived JSON instances), the content
classifier (`is_single_emoji` and the rendering branch), the roster and
transcript stores (`Chat.users`, `Chat.messages`) and the `Chat::update`
and `Chat::view` logic that drives them.

Modelling conventions:
* JSON texts are parsed into the `Json` value type by a fuel-based
  parser standing in for `serde_json::from_str`; serde's derived
  deserializers for the two wire structs are value-level on `Json`
  (`decodeWS`, `decodeMD`), and the outbound direction is modelled down
  to the wire text by `toStringWS` (`serde_json::to_string`, with
  serde_json's string escaping).
* A Rust `panic!` (every `.unwrap()` on a failing value) is modelled as
  the result `none`; `some` carries the normal result.
* The component state is reduced to the two protocol-relevant fields
  `users` and `messages`; the `NodeRef`, websocket handle and event-bus
  bridge are external collaborators and enter the model as explicit
  arguments/results of the transition functions.
-/

namespace YewChat

/-- JSON values, as produced by `serde_json` parsing.  Numbers are kept
as their raw lexeme: no field of this protocol decodes to a number, so
their value is never inspected. -/
inductive Json where
  | null
  | bool (b : Bool)
  | num (raw : String)
  | str (s : String)
  | arr (elems : List Json)
  | obj (fields : List (String × Json))

/-- Skip JSON insignificant whitespace. -/
def skipWs : List Char → List Char
  | [] => []
  | c :: cs =>
    if c = ' ' ∨ c = '\t' ∨ c = '\n' ∨ c = '\r' then skipWs cs else c :: cs

/-- Returns `some rest` when `cs` starts with the given literal, consuming it. -/
def dropLit : List Char → List Char → Option (List Char)
  | [], cs => some cs
  | _ :: _, [] => none
  | p :: ps, c :: cs => if c = p then dropLit ps cs else none

/-- Value of a hexadecimal digit. -/
def hexVal (c : Char) : Option Nat :=
  if '0' ≤ c ∧ c ≤ '9' then some (c.toNat - '0'.toNat)
  else if 'a' ≤ c ∧ c ≤ 'f' then some (c.toNat - 'a'.toNat + 10)
  else if 'A' ≤ c ∧ c ≤ 'F' then some (c.toNat - 'A'.toNat + 10)
  else none

/-- Parse the body of a JSON string literal (the opening quote already
consumed), handling the standard escapes.  `\uXXXX` is mapped to the
scalar value of the four hex digits (surrogate pairing is not modelled;
the protocol's fields never rely on it). -/
def parseStringBody : Nat → List Char → List Char → Option (String × List Char)
  | 0, _, _ => none
  | _ + 1, _, [] => none
  | fuel + 1, acc, c :: cs =>
    if c = '"' then some (String.mk acc.reverse, cs)
    else if c = '\\' then
      match cs with
      | [] => none
      | e :: cs' =>
        if e = '"' then parseStringBody fuel ('"' :: acc) cs'
        else if e = '\\' then parseStringBody fuel ('\\' :: acc) cs'
        else if e = '/' then parseStringBody fuel ('/' :: acc) cs'
        else if e = 'n' then parseStringBody fuel ('\n' :: acc) cs'
        else if e = 't' then parseStringBody fuel ('\t' :: acc) cs'
        else if e = 'r' then parseStringBody fuel ('\r' :: acc) cs'
        else if e = 'b' then parseStringBody fuel (Char.ofNat 8 :: acc) cs'
        else if e = 'f' then parseStringBody fuel (Char.ofNat 12 :: acc) cs'
        else if e = 'u' then
          match cs' with
          | h1 :: h2 :: h3 :: h4 :: cs'' =>
            match hexVal h1, hexVal h2, hexVal h3, hexVal h4 with
            | some a, some b, some c2, some d =>
              parseStringBody fuel (Char.ofNat (((a * 16 + b) * 16 + c2) * 16 + d) :: acc) cs''
            | _, _, _, _ => none
          | _ => none
        else none
    else parseStringBody fuel (c :: acc) cs

/-- Characters that may continue a JSON number lexeme. -/
def isNumChar (c : Char) : Bool :=
  c.isDigit || c = '.' || c = 'e' || c = 'E' || c = '+' || c = '-'

/-- Lex a JSON number, keeping its raw text (see `Json.num`). -/
def parseNum (cs : List Char) : Option (Json × List Char) :=
  let raw := cs.takeWhile isNumChar
  let rest := cs.dropWhile isNumChar
  if raw.any Char.isDigit then some (Json.num (String.mk raw), rest) else none

/-- Parser modes: a single value, the items of an array after `[`, or
the members of an object after `\x7b` (with the elements accumulated so
far, in reverse). -/
inductive PMode where
  | value
  | arrItems (acc : List Json)
  | objItems (acc : List (String × Json))

/-- The recursive JSON parser.  Fuel only bounds the recursion depth so
the function is total; `parseJson` supplies enough for any input. -/
def parseV : Nat → PMode → List Char → Option (Json × List Char)
  | 0, _, _ => none
  | fuel + 1, PMode.value, cs =>
    match skipWs cs with
    | [] => none
    | c :: rest =>
      if c = '"' then
        match parseStringBody (rest.length + 1) [] rest with
        | some (s, cs1) => some (Json.str s, cs1)
        | none => none
      else if c = 'n' then
        match dropLit ['u', 'l', 'l'] rest with
        | some cs1 => some (Json.null, cs1)
        | none => none
      else if c = 't' then
        match dropLit ['r', 'u', 'e'] rest with
        | some cs1 => some (Json.bool true, cs1)
        | none => none
      else if c = 'f' then
        match dropLit ['a', 'l', 's', 'e'] rest with
        | some cs1 => some (Json.bool false, cs1)
        | none => none
      else if c = '[' then
        match skipWs rest with
        | ']' :: cs1 => some (Json.arr [], cs1)
        | cs1 => parseV fuel (PMode.arrItems []) cs1
      else if c = '\x7b' then
        match skipWs rest with
        | '\x7d' :: cs1 => some (Json.obj [], cs1)
        | cs1 => parseV fuel (PMode.objItems []) cs1
      else if c = '-' ∨ c.isDigit then parseNum (c :: rest)
      else none
  | fuel + 1, PMode.arrItems acc, cs =>
    match parseV fuel PMode.value cs with
    | none => none
    | some (v, cs1) =>
      match skipWs cs1 with
      | ',' :: cs2 => parseV fuel (PMode.arrItems (v :: acc)) cs2
      | ']' :: cs2 => some (Json.arr (v :: acc).reverse, cs2)
      | _ => none
  | fuel + 1, PMode.objItems acc, cs =>
    match skipWs cs with
    | '"' :: cs1 =>
      match parseStringBody (cs1.length + 1) [] cs1 with
      | none => none
      | some (k, cs2) =>
        match skipWs cs2 with
        | ':' :: cs3 =>
          match parseV fuel PMode.value cs3 with
          | none => none
          | some (v, cs4) =>
            match skipWs cs4 with
            | ',' :: cs5 => parseV fuel (PMode.objItems ((k, v) :: acc)) cs5
            | '\x7d' :: cs5 => some (Json.obj ((k, v) :: acc).reverse, cs5)
            | _ => none
        | _ => none
    | _ => none

/-- Parse a complete JSON document, requiring only whitespace after the
value, as `serde_json::from_str` does. -/
def parseJson (s : String) : Option Json :=
  match parseV (2 * s.data.length + 2) PMode.value s.data with
  | some (j, rest) => if skipWs rest = [] then some j else none
  | none => none

/-! ## Wire structs and their serde-derived codec

`struct MessageData { from, message }` (`#[derive(Deserialize)]`),
`enum MsgTypes { Users, Register, Message }`
(`#[serde(rename_all = "lowercase")]`) and
`struct WebSocketMessage { message_type, data_array, data }`
(`#[serde(rename_all = "camelCase")]`). -/

/-- Wire struct `MessageData` — the nested payload of a `message`-kind envelope. -/
structure MessageData where
  «from» : String
  message : String
deriving DecidableEq

/-- Wire enum `MsgTypes` — the closed set of envelope kinds. -/
inductive MsgTypes where
  | Users
  | Register
  | Message
deriving DecidableEq

/-- Wire struct `WebSocketMessage` — the outer envelope. -/
structure WebSocketMessage where
  message_type : MsgTypes
  data_array : Option (List String)
  data : Option String
deriving DecidableEq

/-- serde serialization of `MsgTypes` (`rename_all = "lowercase"`:
each unit variant becomes its lowercased name as a JSON string). -/
def encodeMsgTypes : MsgTypes → Json
  | MsgTypes.Users => Json.str "users"
  | MsgTypes.Register => Json.str "register"
  | MsgTypes.Message => Json.str "message"

/-- serde deserialization of `MsgTypes`: a string among the three
variant names; anything else is a decode error. -/
def decodeMsgTypes : Json → Option MsgTypes
  | Json.str s =>
    if s = "users" then some MsgTypes.Users
    else if s = "register" then some MsgTypes.Register
    else if s = "message" then some MsgTypes.Message
    else none
  | _ => none

/-- First binding of key `k` in a JSON object's field list. -/
def jGetField (fields : List (String × Json)) (k : String) : Option Json :=
  match fields with
  | [] => none
  | (k', v) :: rest => if k' = k then some v else jGetField rest k

/-- Decode a JSON value as a string (serde `String` field). -/
def decodeStr : Json → Option String
  | Json.str s => some s
  | _ => none

/-- Decode a list of JSON values as strings, failing if any element is
not a string (serde `Vec<String>`). -/
def decodeStrAll : List Json → Option (List String)
  | [] => some []
  | j :: rest =>
    match decodeStr j with
    | none => none
    | some s => (decodeStrAll rest).map (fun l => s :: l)

/-- Decode a JSON value as a string array (serde `Vec<String>`). -/
def decodeStrList : Json → Option (List String)
  | Json.arr xs => decodeStrAll xs
  | _ => none

/-- serde treatment of an `Option<T>` field: a missing field and an
explicit `null` both decode to `none`; a present non-null value must
decode by `dec`. -/
def decodeOptField (fields : List (String × Json)) (k : String)
    (dec : Json → Option α) : Option (Option α) :=
  match jGetField fields k with
  | none => some none
  | some Json.null => some none
  | some j => (dec j).map some

/-- serde serialization of an `Option<String>` field (`None` → `null`). -/
def encodeOptStr : Option String → Json
  | none => Json.null
  | some s => Json.str s

/-- serde serialization of an `Option<Vec<String>>` field. -/
def encodeOptList : Option (List String) → Json
  | none => Json.null
  | some l => Json.arr (l.map Json.str)

/-- serde-derived `Serialize` for `WebSocketMessage`: the three fields
in declaration order, keys camelCased. -/
def encodeWS (m : WebSocketMessage) : Json :=
  Json.obj [("messageType", encodeMsgTypes m.message_type),
            ("dataArray", encodeOptList m.data_array),
            ("data", encodeOptStr m.data)]

/-- serde-derived `Deserialize` for `WebSocketMessage`: `messageType`
required, the two `Option` fields optional, unknown fields ignored. -/
def decodeWS (j : Json) : Option WebSocketMessage :=
  match j with
  | Json.obj fields =>
    match jGetField fields "messageType" with
    | none => none
    | some tj =>
      match decodeMsgTypes tj with
      | none => none
      | some t =>
        match decodeOptField fields "dataArray" decodeStrList with
        | none => none
        | some arr =>
          match decodeOptField fields "data" decodeStr with
          | none => none
          | some d => some ⟨t, arr, d⟩
  | _ => none

/-- serde-derived `Deserialize` for `MessageData`: both fields required
strings, unknown fields ignored. -/
def decodeMD (j : Json) : Option MessageData :=
  match j with
  | Json.obj fields =>
    match jGetField fields "from" with
    | none => none
    | some fj =>
      match decodeStr fj with
      | none => none
      | some f =>
        match jGetField fields "message" with
        | none => none
        | some mj =>
          match decodeStr mj with
          | none => none
          | some m => some ⟨f, m⟩
  | _ => none

/-- Model of `serde_json::from_str::<WebSocketMessage>`: parse the text, then
decode the value. -/
def fromStrWS (s : String) : Option WebSocketMessage :=
  (parseJson s).bind decodeWS

/-- Model of `serde_json::from_str::<MessageData>`. -/
def fromStrMD (s : String) : Option MessageData :=
  (parseJson s).bind decodeMD

/-! ## Text-level serializer (`serde_json::to_string`)

The outbound half of the Envelope Codec: the exact character sequence
`serde_json::to_string::<WebSocketMessage>` emits — compact output,
fields in declaration order with camelCased keys, `None` rendered as
`null`, and string contents escaped by serde_json's rules. -/

/-- One lowercase hexadecimal digit. -/
def hexDigit (n : Nat) : Char :=
  if n < 10 then Char.ofNat ('0'.toNat + n) else Char.ofNat ('a'.toNat + (n - 10))

/-- serde_json's escaping of one character inside a string literal:
quote and backslash escaped, the named control escapes `\b \t \n \f
\r`, every remaining control character as `\u00XX` (lowercase hex), and
everything else emitted as itself. -/
def escChar (c : Char) : List Char :=
  if c = '"' then ['\\', '"']
  else if c = '\\' then ['\\', '\\']
  else if c = '\x08' then ['\\', 'b']
  else if c = '\x09' then ['\\', 't']
  else if c = '\x0a' then ['\\', 'n']
  else if c = '\x0c' then ['\\', 'f']
  else if c = '\x0d' then ['\\', 'r']
  else if c.toNat < 0x20 then
    ['\\', 'u', '0', '0', hexDigit (c.toNat / 16), hexDigit (c.toNat % 16)]
  else [c]

/-- Rendering of a JSON string literal. -/
def serializeStr (s : String) : List Char :=
  '"' :: (s.data.flatMap escChar ++ ['"'])

/-- Rendering of the literal `null`. -/
def nullChars : List Char := ['n', 'u', 'l', 'l']

/-- Rendering of the items of a string array after the first: a comma
before each. -/
def itemsTail (xs : List String) : List Char :=
  xs.flatMap (fun s => ',' :: serializeStr s)

/-- Rendering of a string array (serde `Vec<String>`). -/
def serializeStrArr : List String → List Char
  | [] => ['[', ']']
  | x :: xs => '[' :: (serializeStr x ++ itemsTail xs ++ [']'])

/-- Rendering of an `Option<Vec<String>>` field value. -/
def serializeOptArr : Option (List String) → List Char
  | none => nullChars
  | some l => serializeStrArr l

/-- Rendering of an `Option<String>` field value. -/
def serializeOptStr : Option String → List Char
  | none => nullChars
  | some s => serializeStr s

/-- The lowercased variant name of an envelope kind
(serde `rename_all = "lowercase"`), as it appears on the wire. -/
def mtLower : MsgTypes → String
  | MsgTypes.Users => "users"
  | MsgTypes.Register => "register"
  | MsgTypes.Message => "message"

/-- The rendered envelope object. -/
def objChars (t : MsgTypes) (arr : Option (List String)) (d : Option String) :
    List Char :=
  '\x7b' :: (serializeStr "messageType" ++ ':' :: serializeStr (mtLower t) ++
    ',' :: serializeStr "dataArray" ++ ':' :: serializeOptArr arr ++
    ',' :: serializeStr "data" ++ ':' :: serializeOptStr d ++ ['\x7d'])

/-- Model of `serde_json::to_string::<WebSocketMessage>` — the Envelope
Codec's `encode(envelope) -> text`. -/
def toStringWS (m : WebSocketMessage) : String :=
  String.mk (objChars m.message_type m.data_array m.data)

/-! ## Content classifier -/

/-- Rust `char::is_whitespace`: the Unicode `White_Space` property. -/
def rustIsWhitespace (c : Char) : Bool :=
  let n := c.toNat
  decide (0x09 ≤ n ∧ n ≤ 0x0D) || n == 0x20 || n == 0x85 || n == 0xA0 ||
  n == 0x1680 || decide (0x2000 ≤ n ∧ n ≤ 0x200A) || n == 0x2028 ||
  n == 0x2029 || n == 0x202F || n == 0x205F || n == 0x3000

/-- Rust `str::trim`: strip leading and trailing whitespace characters. -/
def rustTrim (s : String) : String :=
  String.mk (((s.data.dropWhile rustIsWhitespace).reverse.dropWhile
    rustIsWhitespace).reverse)

/-- Rust `str::ends_with(suffix)` for string suffixes. -/
def rustEndsWith (s suffix : String) : Bool :=
  List.isPrefixOf suffix.data.reverse s.data.reverse

/-- One range test of `is_single_emoji`: `lo <= code && code <= hi`. -/
def inRange (lo hi code : Nat) : Bool :=
  decide (lo ≤ code ∧ code ≤ hi)

/-- Function `is_single_emoji` (chat.rs lines 9–30): trim, require exactly one
character, and test its code point against the listed ranges.  The `[]`
arm is unreachable (`char_count = 1` forces a head) and mirrors the
source's `.next().unwrap()` never failing there. -/
def is_single_emoji (text : String) : Bool :=
  let trimmed := rustTrim text
  let char_count := trimmed.data.length
  if char_count = 1 then
    match trimmed.data with
    | [] => false
    | ch :: _ =>
      let code := ch.toNat
      inRange 0x1F600 0x1F64F code ||
      inRange 0x1F300 0x1F5FF code ||
      inRange 0x1F680 0x1F6FF code ||
      inRange 0x1F700 0x1F77F code ||
      inRange 0x2600 0x26FF code ||
      inRange 0x2700 0x27BF code ||
      inRange 0xFE00 0xFE0F code ||
      inRange 0x1F900 0x1F9FF code ||
      inRange 0x1F018 0x1F270 code
  else false

/-- The rendering categories the messages area of `Chat::view` selects
between for a message body. -/
inductive RenderCategory where
  | Image
  | SingleEmoji
  | Text
deriving DecidableEq

/-- The classification made by the message-body branch of `Chat::view`
(lines 223–229): `if m.message.ends_with(".gif") \x7b img \x7d else if
is_single_emoji(&m.message) \x7b big text \x7d else \x7b plain text \x7d`. -/
def classify (body : String) : RenderCategory :=
  if rustEndsWith body ".gif" then RenderCategory.Image
  else if is_single_emoji body then RenderCategory.SingleEmoji
  else RenderCategory.Text

/-! ## Component state and transitions -/

/-- Derived struct `UserProfile` — a roster entry. -/
structure UserProfile where
  name : String
  avatar : String
deriving DecidableEq

/-- The avatar URL built for user `u` in the `Users` arm of
`Chat::update`. -/
def avatarFor (u : String) : String :=
  "https://avatars.dicebear.com/api/adventurer-neutral/" ++ u ++ ".svg"

/-- The protocol-relevant state of the `Chat` component: the roster
(`users`) and the transcript (`messages`).  `chat_input`, `wss` and
`_producer` are external collaborators modelled at the call sites. -/
structure Chat where
  users : List UserProfile
  messages : List MessageData
deriving DecidableEq

/-- The dispatch of `Chat::update` on an already-deserialized
`WebSocketMessage` (the body of the `Msg::HandleMsg` arm after
`serde_json::from_str(&s).unwrap()`).  `none` models a panic; `some
(st, b)` is the new state and the returned re-render flag.
* `Users`: replace the roster from `data_array.unwrap_or_default()`.
* `Message`: `msg.data.unwrap()` (panic when absent), nested
  `from_str::<MessageData>(..).unwrap()` (panic when malformed), then
  push onto the transcript.
* remaining kinds (`Register`): no state change, no re-render. -/
def handleDecoded (st : Chat) (msg : WebSocketMessage) : Option (Chat × Bool) :=
  match msg.message_type with
  | MsgTypes.Users =>
    let users_from_message := msg.data_array.getD []
    some ({ st with
            users := users_from_message.map (fun u => ⟨u, avatarFor u⟩) },
          true)
  | MsgTypes.Message =>
    match msg.data with
    | none => none
    | some d =>
      match fromStrMD d with
      | none => none
      | some message_data =>
        some ({ st with messages := st.messages ++ [message_data] }, true)
  | _ => some (st, false)

/-- The `Msg::HandleMsg(s)` arm of `Chat::update`: deserialize the raw
frame (`.unwrap()`: `none` models the panic on a malformed frame) and
dispatch. -/
def handleMsg (st : Chat) (s : String) : Option (Chat × Bool) :=
  match fromStrWS s with
  | none => none
  | some msg => handleDecoded st msg

/-- The observable outcome of the `Msg::SubmitMessage` arm: the state
afterwards, the frames handed to `wss.tx.try_send` (already encoded),
the chat input element's value afterwards (`none` when the `NodeRef`
resolved to no element), and the returned re-render flag. -/
structure SubmitEffect where
  state : Chat
  outbound : List Json
  inputVal : Option String
  rerender : Bool

/-- The `Msg::SubmitMessage` arm of `Chat::update`.  `input` is the
resolved chat input element's current value (`none` when
`chat_input.cast::<HtmlInputElement>()` fails); `sendOk` is whether
`try_send` succeeds.  When the element resolves, one `message`-kind
envelope carrying the input text is encoded and handed to the channel,
a send `Err` is only logged, and the element is cleared afterwards in
both cases; the arm always returns `false`. -/
def submitMessage (st : Chat) (input : Option String) (sendOk : Bool) :
    SubmitEffect :=
  match input with
  | none => ⟨st, [], none, false⟩
  | some t =>
    let message : WebSocketMessage := ⟨MsgTypes.Message, none, some t⟩
    match sendOk with
    | true => ⟨st, [encodeWS message], some "", false⟩
    | false => ⟨st, [encodeWS message], some "", false⟩

/-- The emoji condition in the words of the specification (§4.2): the
trimmed body is exactly one Unicode scalar value whose code point lies
in one of the nine inclusive ranges. -/
def inEmojiRangesSpec (n : Nat) : Prop :=
  (0x1F600 ≤ n ∧ n ≤ 0x1F64F) ∨ (0x1F300 ≤ n ∧ n ≤ 0x1F5FF) ∨
  (0x1F680 ≤ n ∧ n ≤ 0x1F6FF) ∨ (0x1F700 ≤ n ∧ n ≤ 0x1F77F) ∨
  (0x2600 ≤ n ∧ n ≤ 0x26FF) ∨ (0x2700 ≤ n ∧ n ≤ 0x27BF) ∨
  (0xFE00 ≤ n ∧ n ≤ 0xFE0F) ∨ (0x1F900 ≤ n ∧ n ≤ 0x1F9FF) ∨
  (0x1F018 ≤ n ∧ n ≤ 0x1F270)

instance (n : Nat) : Decidable (inEmojiRangesSpec n) := by
  unfold inEmojiRangesSpec
  infer_instance

/-- The per-entry projection of the messages area of `Chat::view`
(lines 212 ff.): look the sender up in the roster —
`self.users.iter().find(|u| u.name == m.from).unwrap()`, whose panic on
a miss is modelled by `none` — and classify the body. -/
def renderEntry (users : List UserProfile) (m : MessageData) :
    Option (UserProfile × RenderCategory) :=
  match users.find? (fun u => u.name == m.«from») with
  | none => none
  | some user => some (user, classify m.message)

/-! ## Shared lemmas -/

lemma decodeStrAll_map (l : List String) :
    decodeStrAll (l.map Json.str) = some l := by
  induction l with
  | nil => rfl
  | cons h t ih => simp [decodeStrAll, decodeStr, ih]

lemma decodeWS_encodeWS (e : WebSocketMessage) :
    decodeWS (encodeWS e) = some e := by
  obtain ⟨t, arr, d⟩ := e
  cases t <;> cases arr <;> cases d <;>
    simp [encodeWS, decodeWS, encodeMsgTypes, decodeMsgTypes, jGetField,
      decodeOptField, decodeStrList, decodeStr, encodeOptStr, encodeOptList,
      decodeStrAll_map]

lemma is_single_emoji_iff (text : String) :
    is_single_emoji text = true ↔
      ∃ c : Char, (rustTrim text).data = [c] ∧ inEmojiRangesSpec c.toNat := by
  simp only [is_single_emoji]
  rcases hl : (rustTrim text).data with _ | ⟨c, _ | ⟨d, rest⟩⟩
  · simp
  · simp [inRange, inEmojiRangesSpec]
    omega
  · simp

lemma is_single_emoji_eq_false (text : String)
    (h : (rustTrim text).data.length ≠ 1) : is_single_emoji text = false := by
  simp only [is_single_emoji]
  rw [if_neg h]



/-! ## Parser-inverts-printer lemmas for the envelope codec -/

lemma hexVal_hexDigit (n : Nat) (h : n < 16) : hexVal (hexDigit n) = some n := by
  have : ∀ m, m < 16 → hexVal (hexDigit m) = some m := by decide
  exact this n h

lemma parseStringBody_u (q r : Nat) (hq : q < 16) (hr : r < 16)
    (acc tail : List Char) (f : Nat) :
    parseStringBody (f + 1) acc
      ('\\' :: 'u' :: '0' :: '0' :: hexDigit q :: hexDigit r :: tail)
      = parseStringBody f (Char.ofNat (q * 16 + r) :: acc) tail := by
  simp only [parseStringBody, hexVal_hexDigit q hq, hexVal_hexDigit r hr]
  simp only [show hexVal '0' = some 0 from rfl]
  simp

lemma parseStringBody_step (c : Char) (acc tail : List Char) (f : Nat) :
    parseStringBody (f + 1) acc (escChar c ++ tail)
      = parseStringBody f (c :: acc) tail := by
  by_cases h1 : c = '"'
  · subst h1; rfl
  by_cases h2 : c = '\\'
  · subst h2; rfl
  by_cases h3 : c = '\x08'
  · subst h3; rfl
  by_cases h4 : c = '\x09'
  · subst h4; rfl
  by_cases h5 : c = '\x0a'
  · subst h5; rfl
  by_cases h6 : c = '\x0c'
  · subst h6; rfl
  by_cases h7 : c = '\x0d'
  · subst h7; rfl
  by_cases h8 : c.toNat < 0x20
  · simp only [escChar, if_neg h1, if_neg h2, if_neg h3, if_neg h4, if_neg h5,
      if_neg h6, if_neg h7, if_pos h8, List.cons_append, List.nil_append]
    rw [parseStringBody_u (c.toNat / 16) (c.toNat % 16) (by omega) (by omega)]
    have hqr : c.toNat / 16 * 16 + c.toNat % 16 = c.toNat := by omega
    rw [hqr, Char.ofNat_toNat]
  · simp only [escChar, if_neg h1, if_neg h2, if_neg h3, if_neg h4, if_neg h5,
      if_neg h6, if_neg h7, if_neg h8, List.cons_append, List.nil_append,
      parseStringBody]

lemma escChar_length_pos (c : Char) : 1 ≤ (escChar c).length := by
  unfold escChar
  repeat' split
  all_goals simp

lemma length_le_flatMap_escChar (l : List Char) :
    l.length ≤ (l.flatMap escChar).length := by
  induction l with
  | nil => simp
  | cons c t ih =>
    have := escChar_length_pos c
    simp only [List.flatMap_cons, List.length_append, List.length_cons]
    omega

lemma skipWs_cons (c : Char) (cs : List Char)
    (h : ¬(c = ' ' ∨ c = '\t' ∨ c = '\n' ∨ c = '\r')) :
    skipWs (c :: cs) = c :: cs := by
  simp [skipWs, h]

lemma string_mk_data (s : String) : String.mk s.data = s := rfl

lemma parseStringBody_flatMap (l : List Char) :
    ∀ (acc rest : List Char) (f : Nat), l.length < f →
    parseStringBody f acc (l.flatMap escChar ++ '"' :: rest)
      = some (String.mk (acc.reverse ++ l), rest) := by
  induction l with
  | nil =>
    intro acc rest f hf
    obtain ⟨g, rfl⟩ : ∃ g, f = g + 1 := ⟨f - 1, by omega⟩
    simp [parseStringBody]
  | cons c t ih =>
    intro acc rest f hf
    obtain ⟨g, rfl⟩ : ∃ g, f = g + 1 := ⟨f - 1, by omega⟩
    rw [List.flatMap_cons, List.append_assoc, parseStringBody_step,
      ih (c :: acc) rest g (by simp at hf ⊢; omega)]
    simp

lemma parseV_value_str (s : String) (rest : List Char) (f : Nat) :
    parseV (f + 1) PMode.value (serializeStr s ++ rest)
      = some (Json.str s, rest) := by
  have hlen : s.data.length
      < (s.data.flatMap escChar ++ ('"' :: rest)).length + 1 := by
    have := length_le_flatMap_escChar s.data
    simp only [List.length_append, List.length_cons]
    omega
  simp only [serializeStr, List.cons_append, List.append_assoc,
    List.nil_append, List.singleton_append]
  simp only [parseV,
    skipWs_cons '"' (s.data.flatMap escChar ++ '"' :: rest) (by decide)]
  rw [if_true, parseStringBody_flatMap s.data [] rest _ hlen]
  simp [string_mk_data]

lemma parseV_value_null (rest : List Char) (f : Nat) :
    parseV (f + 1) PMode.value (nullChars ++ rest) = some (Json.null, rest) := rfl

lemma itemsTail_nil : itemsTail [] = [] := rfl

lemma itemsTail_cons (y : String) (ys : List String) :
    itemsTail (y :: ys) = ',' :: (serializeStr y ++ itemsTail ys) := by
  simp [itemsTail]

lemma parseV_arrItems_eq (f : Nat) (acc : List Json) (cs : List Char) :
    parseV (f + 1) (PMode.arrItems acc) cs
      = match parseV f PMode.value cs with
        | none => none
        | some (v, cs1) =>
          match skipWs cs1 with
          | ',' :: cs2 => parseV f (PMode.arrItems (v :: acc)) cs2
          | ']' :: cs2 => some (Json.arr (v :: acc).reverse, cs2)
          | _ => none := rfl

lemma parseV_arrItems_some (f : Nat) (acc : List Json) (cs : List Char)
    (v : Json) (cs1 : List Char) (h : parseV f PMode.value cs = some (v, cs1)) :
    parseV (f + 1) (PMode.arrItems acc) cs
      = match skipWs cs1 with
        | ',' :: cs2 => parseV f (PMode.arrItems (v :: acc)) cs2
        | ']' :: cs2 => some (Json.arr (v :: acc).reverse, cs2)
        | _ => none := by
  rw [parseV_arrItems_eq, h]

lemma parseV_arrItems (xs : List String) :
    ∀ (x : String) (acc : List Json) (rest : List Char) (f : Nat),
      xs.length + 2 ≤ f →
      parseV f (PMode.arrItems acc)
        (serializeStr x ++ (itemsTail xs ++ (']' :: rest)))
        = some (Json.arr (acc.reverse ++ (x :: xs).map Json.str), rest) := by
  induction xs with
  | nil =>
    intro x acc rest f hf
    obtain ⟨g, rfl⟩ : ∃ g, f = g + 1 := ⟨f - 1, by omega⟩
    obtain ⟨g', rfl⟩ : ∃ g'', g = g'' + 1 := ⟨g - 1, by omega⟩
    rw [itemsTail_nil, List.nil_append,
      parseV_arrItems_some _ _ _ _ _ (parseV_value_str x (']' :: rest) g'),
      skipWs_cons ']' rest (by decide)]
    simp
  | cons y ys ih =>
    intro x acc rest f hf
    obtain ⟨g, rfl⟩ : ∃ g, f = g + 1 := ⟨f - 1, by omega⟩
    rw [itemsTail_cons, List.cons_append, List.append_assoc]
    obtain ⟨g', rfl⟩ : ∃ g'', g = g'' + 1 := ⟨g - 1, by omega⟩
    rw [parseV_arrItems_some _ _ _ _ _
        (parseV_value_str x (',' :: (serializeStr y ++ (itemsTail ys ++ (']' :: rest)))) g'),
      skipWs_cons ',' (serializeStr y ++ (itemsTail ys ++ (']' :: rest)))
        (by decide)]
    exact Eq.trans
      (ih y (Json.str x :: acc) rest (g' + 1) (by simp at hf ⊢; omega))
      (by simp)

lemma parseV_value_strArr (l : List String) (rest : List Char) (f : Nat)
    (hf : l.length + 3 ≤ f) :
    parseV f PMode.value (serializeStrArr l ++ rest)
      = some (Json.arr (l.map Json.str), rest) := by
  obtain ⟨g, rfl⟩ : ∃ g, f = g + 1 := ⟨f - 1, by omega⟩
  cases l with
  | nil => rfl
  | cons x xs =>
    have e : parseV (g + 1) PMode.value (serializeStrArr (x :: xs) ++ rest)
        = parseV g (PMode.arrItems [])
            (serializeStr x ++ (itemsTail xs ++ (']' :: rest))) := by
      simp only [serializeStrArr, serializeStr, List.cons_append,
        List.append_assoc, List.nil_append, List.singleton_append]
      rfl
    rw [e, parseV_arrItems xs x [] rest g (by simp at hf ⊢; omega)]
    simp

lemma parseV_objItems_eq (f : Nat) (acc : List (String × Json)) (cs : List Char) :
    parseV (f + 1) (PMode.objItems acc) cs
      = match skipWs cs with
        | '"' :: cs1 =>
          match parseStringBody (cs1.length + 1) [] cs1 with
          | none => none
          | some (k, cs2) =>
            match skipWs cs2 with
            | ':' :: cs3 =>
              match parseV f PMode.value cs3 with
              | none => none
              | some (v, cs4) =>
                match skipWs cs4 with
                | ',' :: cs5 => parseV f (PMode.objItems ((k, v) :: acc)) cs5
                | '\x7d' :: cs5 => some (Json.obj ((k, v) :: acc).reverse, cs5)
                | _ => none
            | _ => none
        | _ => none := rfl

lemma parseV_objItems_step (g : Nat) (acc : List (String × Json)) (k : String)
    (vchars tail : List Char) (v : Json) (res : Option (Json × List Char))
    (hv : parseV g PMode.value (vchars ++ tail) = some (v, tail))
    (hcont : (match skipWs tail with
        | ',' :: cs5 => parseV g (PMode.objItems ((k, v) :: acc)) cs5
        | '\x7d' :: cs5 => some (Json.obj ((k, v) :: acc).reverse, cs5)
        | _ => none) = res) :
    parseV (g + 1) (PMode.objItems acc)
      (serializeStr k ++ (':' :: (vchars ++ tail))) = res := by
  have hlen : k.data.length
      < (k.data.flatMap escChar ++ ('"' :: (':' :: (vchars ++ tail)))).length + 1 := by
    have := length_le_flatMap_escChar k.data
    simp only [List.length_append, List.length_cons]
    omega
  rw [parseV_objItems_eq]
  simp only [serializeStr, List.cons_append, List.append_assoc,
    List.singleton_append, List.nil_append]
  rw [skipWs_cons '"' (k.data.flatMap escChar ++ ('"' :: (':' :: (vchars ++ tail))))
      (by decide)]
  show (match parseStringBody
        ((k.data.flatMap escChar ++ ('"' :: (':' :: (vchars ++ tail)))).length + 1)
        [] (k.data.flatMap escChar ++ ('"' :: (':' :: (vchars ++ tail)))) with
      | none => none
      | some (k', cs2) =>
        match skipWs cs2 with
        | ':' :: cs3 =>
          match parseV g PMode.value cs3 with
          | none => none
          | some (v', cs4) =>
            match skipWs cs4 with
            | ',' :: cs5 => parseV g (PMode.objItems ((k', v') :: acc)) cs5
            | '\x7d' :: cs5 => some (Json.obj ((k', v') :: acc).reverse, cs5)
            | _ => none
        | _ => none) = res
  rw [parseStringBody_flatMap k.data [] (':' :: (vchars ++ tail)) _ hlen]
  show (match skipWs (':' :: (vchars ++ tail)) with
      | ':' :: cs3 =>
        match parseV g PMode.value cs3 with
        | none => none
        | some (v', cs4) =>
          match skipWs cs4 with
          | ',' :: cs5 => parseV g (PMode.objItems ((k, v') :: acc)) cs5
          | '\x7d' :: cs5 => some (Json.obj ((k, v') :: acc).reverse, cs5)
          | _ => none
      | _ => none) = res
  rw [skipWs_cons ':' (vchars ++ tail) (by decide)]
  show (match parseV g PMode.value (vchars ++ tail) with
      | none => none
      | some (v', cs4) =>
        match skipWs cs4 with
        | ',' :: cs5 => parseV g (PMode.objItems ((k, v') :: acc)) cs5
        | '\x7d' :: cs5 => some (Json.obj ((k, v') :: acc).reverse, cs5)
        | _ => none) = res
  rw [hv]
  exact hcont

lemma parseV_value_optArr (arr : Option (List String)) (rest : List Char)
    (f : Nat) (hf : (arr.getD []).length + 3 ≤ f) :
    parseV f PMode.value (serializeOptArr arr ++ rest)
      = some (encodeOptList arr, rest) := by
  cases arr with
  | none =>
    obtain ⟨g, rfl⟩ : ∃ g, f = g + 1 := ⟨f - 1, by omega⟩
    exact parseV_value_null rest g
  | some l => exact parseV_value_strArr l rest f (by simp at hf ⊢; omega)

lemma parseV_value_optStr (d : Option String) (rest : List Char) (f : Nat) :
    parseV (f + 1) PMode.value (serializeOptStr d ++ rest)
      = some (encodeOptStr d, rest) := by
  cases d with
  | none => exact parseV_value_null rest f
  | some s => exact parseV_value_str s rest f

lemma parseV_objItems_env (t : MsgTypes) (arr : Option (List String))
    (d : Option String) (rest : List Char) (f : Nat)
    (hf : (arr.getD []).length + 5 ≤ f) :
    parseV f (PMode.objItems [])
      (serializeStr "messageType" ++ (':' :: (serializeStr (mtLower t) ++
        (',' :: (serializeStr "dataArray" ++ (':' :: (serializeOptArr arr ++
        (',' :: (serializeStr "data" ++ (':' :: (serializeOptStr d ++
        ('\x7d' :: rest)))))))))))) = some (encodeWS ⟨t, arr, d⟩, rest) := by
  obtain ⟨g1, rfl⟩ : ∃ g, f = g + 1 := ⟨f - 1, by omega⟩
  obtain ⟨g2, rfl⟩ : ∃ g, g1 = g + 1 := ⟨g1 - 1, by omega⟩
  obtain ⟨g3, rfl⟩ : ∃ g, g2 = g + 1 := ⟨g2 - 1, by omega⟩
  obtain ⟨g4, rfl⟩ : ∃ g, g3 = g + 1 := ⟨g3 - 1, by omega⟩
  apply parseV_objItems_step _ _ _ _ _ _ _
    (parseV_value_str (mtLower t) _ (g4 + 1 + 1))
  rw [skipWs_cons ',' _ (by decide)]
  show parseV (g4 + 1 + 1 + 1)
      (PMode.objItems [("messageType", Json.str (mtLower t))])
      (serializeStr "dataArray" ++ (':' :: (serializeOptArr arr ++
        (',' :: (serializeStr "data" ++ (':' :: (serializeOptStr d ++
        ('\x7d' :: rest)))))))) = some (encodeWS ⟨t, arr, d⟩, rest)
  apply parseV_objItems_step _ _ _ _ _ _ _
    (parseV_value_optArr arr _ (g4 + 1 + 1) (by simp at hf ⊢; omega))
  rw [skipWs_cons ',' _ (by decide)]
  show parseV (g4 + 1 + 1)
      (PMode.objItems [("dataArray", encodeOptList arr),
        ("messageType", Json.str (mtLower t))])
      (serializeStr "data" ++ (':' :: (serializeOptStr d ++ ('\x7d' :: rest))))
      = some (encodeWS ⟨t, arr, d⟩, rest)
  apply parseV_objItems_step _ _ _ _ _ _ _ (parseV_value_optStr d _ g4)
  rw [skipWs_cons '\x7d' _ (by decide)]
  cases t <;> rfl

lemma parseV_value_env (t : MsgTypes) (arr : Option (List String))
    (d : Option String) (rest : List Char) (f : Nat)
    (hf : (arr.getD []).length + 6 ≤ f) :
    parseV f PMode.value (objChars t arr d ++ rest)
      = some (encodeWS ⟨t, arr, d⟩, rest) := by
  obtain ⟨g, rfl⟩ : ∃ g, f = g + 1 := ⟨f - 1, by omega⟩
  have e : parseV (g + 1) PMode.value (objChars t arr d ++ rest)
      = parseV g (PMode.objItems [])
          (serializeStr "messageType" ++ (':' :: (serializeStr (mtLower t) ++
            (',' :: (serializeStr "dataArray" ++ (':' :: (serializeOptArr arr ++
            (',' :: (serializeStr "data" ++ (':' :: (serializeOptStr d ++
            ('\x7d' :: rest))))))))))))  := by
    simp only [objChars, List.cons_append, List.append_assoc, List.nil_append,
      List.singleton_append]
    rfl
  rw [e]
  exact parseV_objItems_env t arr d rest g (by omega)

lemma le_length_itemsTail (xs : List String) :
    xs.length ≤ (itemsTail xs).length := by
  induction xs with
  | nil => simp [itemsTail]
  | cons y ys ih =>
    rw [itemsTail_cons]
    simp only [List.length_cons, List.length_append]
    omega

lemma le_length_serializeStrArr (l : List String) :
    l.length ≤ (serializeStrArr l).length := by
  cases l with
  | nil => simp [serializeStrArr]
  | cons x xs =>
    have := le_length_itemsTail xs
    simp only [serializeStrArr, List.length_cons, List.length_append]
    omega

lemma le_length_serializeOptArr (arr : Option (List String)) :
    (arr.getD []).length ≤ (serializeOptArr arr).length := by
  cases arr with
  | none => simp [serializeOptArr, nullChars]
  | some l => simpa [serializeOptArr] using le_length_serializeStrArr l

lemma parseJson_toStringWS (m : WebSocketMessage) :
    parseJson (toStringWS m) = some (encodeWS m) := by
  obtain ⟨t, arr, d⟩ := m
  have h1 := le_length_serializeOptArr arr
  have hb : (arr.getD []).length + 6 ≤ 2 * (objChars t arr d).length + 2 := by
    simp only [objChars, List.length_cons, List.length_append]
    omega
  have h := parseV_value_env t arr d [] (2 * (objChars t arr d).length + 2) hb
  rw [List.append_nil] at h
  unfold parseJson toStringWS
  rw [show (String.mk (objChars t arr d)).data = objChars t arr d from rfl, h]
  rfl

/-! ## Claims -/

/-- Claim C1: the claim says a raw frame that is not a well-formed
envelope (malformed JSON, or a `messageType` outside
users/register/message) is dropped with the session, roster and
transcript intact.  The source instead unwraps the failed
deserialization: on both failing frames below, `Msg::HandleMsg`
panics (`none`), terminating the session. -/
theorem handleMsg_malformed_frame_panics :
    handleMsg ⟨[], []⟩ "bogus" = none ∧
    handleMsg ⟨[], []⟩
      "\x7b\"messageType\":\"bogus\",\"dataArray\":null,\"data\":null\x7d"
      = none :=
  ⟨rfl, rfl⟩

/-- Claim C2: the claim says a `message`-kind envelope whose nested
payload is absent or unparseable is dropped, keeping the session,
transcript and roster.  The source instead panics (`none`) both when
`data` is absent (`msg.data.unwrap()`) and when the nested
`MessageData` parse fails (`from_str(..).unwrap()`). -/
theorem handleMsg_bad_nested_panics :
    handleMsg ⟨[], []⟩
      "\x7b\"messageType\":\"message\",\"dataArray\":null,\"data\":null\x7d"
      = none ∧
    handleMsg ⟨[], []⟩
      "\x7b\"messageType\":\"message\",\"dataArray\":null,\"data\":\"notjson\"\x7d"
      = none :=
  ⟨rfl, rfl⟩

/-- Claim C3: the claim says the render projection has a defined,
crash-free fallback when a transcript entry's `from` matches no roster
name.  The source's `find(..).unwrap()` instead panics (`none`) on a
lookup miss — both against an empty roster and against a non-empty
roster without the sender. -/
theorem renderEntry_lookup_miss_panics :
    renderEntry [] ⟨"ghost", "hi"⟩ = none ∧
    renderEntry [⟨"alice", avatarFor "alice"⟩] ⟨"ghost", "hi"⟩ = none :=
  ⟨rfl, rfl⟩

/-- Claim C4, counterexample: the claim as stated — `classify body =
Image` iff the *trimmed* body ends with `.gif` — fails at the body
`"a.gif "`: its trimmed form ends with `.gif`, yet the source checks
the untrimmed body and classifies it `Text`. -/
theorem classify_image_trimmed_counterexample :
    ¬ (classify "a.gif " = RenderCategory.Image ↔
        rustEndsWith (rustTrim "a.gif ") ".gif" = true) := by
  decide

/-- Claim C4, amended: classification is `Image` iff the raw,
untrimmed body ends with the literal case-sensitive 4-character suffix
`.gif`. -/
theorem classify_image_iff_untrimmed_gif (body : String) :
    classify body = RenderCategory.Image ↔ rustEndsWith body ".gif" = true := by
  unfold classify
  by_cases h : rustEndsWith body ".gif" = true
  · simp [h]
  · by_cases h2 : is_single_emoji body = true <;> simp [h, h2]

/-- Claim C5: for every body not classified `Image`, the
classification is `SingleEmoji` iff the trimmed body is exactly one
Unicode scalar value whose code point lies in the nine listed inclusive
ranges; the empty body classifies `Text`, and a non-`Image` body whose
trimmed form has two or more characters classifies `Text`. -/
theorem classify_single_emoji_spec :
    (∀ body, classify body ≠ RenderCategory.Image →
      (classify body = RenderCategory.SingleEmoji ↔
        ∃ c : Char, (rustTrim body).data = [c] ∧ inEmojiRangesSpec c.toNat)) ∧
    classify "" = RenderCategory.Text ∧
    (∀ body, classify body ≠ RenderCategory.Image →
      2 ≤ (rustTrim body).data.length → classify body = RenderCategory.Text) := by
  refine ⟨?_, by decide, ?_⟩
  · intro body h
    rw [← is_single_emoji_iff]
    unfold classify at *
    by_cases hg : rustEndsWith body ".gif" = true
    · simp [hg] at h
    · by_cases he : is_single_emoji body = true <;> simp [hg, he]
  · intro body h hlen
    have he : is_single_emoji body = false :=
      is_single_emoji_eq_false body (by omega)
    unfold classify at *
    by_cases hg : rustEndsWith body ".gif" = true
    · simp [hg] at h
    · simp [hg, he]

/-- Claim C5, witness: the theorem applied at the single emoji `😀`
(classifies `SingleEmoji`) and at `"aa"` (two characters, `Text`). -/
theorem classify_single_emoji_spec_witness :
    classify "😀" = RenderCategory.SingleEmoji ∧
    classify "aa" = RenderCategory.Text :=
  ⟨(classify_single_emoji_spec.1 "😀" (by decide)).mpr
      ⟨'😀', by decide, by decide⟩,
   classify_single_emoji_spec.2.2 "aa" (by decide) (by decide)⟩

/-- Claim C6: a `Users`-kind envelope replaces the roster wholesale:
the handler succeeds with re-render `true`, the new roster's names are
exactly `data_array` (one profile per name, in input order — empty when
the field is absent), every avatar is computed from its name by
`avatarFor`, and the transcript is untouched. -/
theorem handleDecoded_users_replaces_roster (st : Chat) (m : WebSocketMessage)
    (h : m.message_type = MsgTypes.Users) :
    (handleDecoded st m).map (fun r => r.1.users.map UserProfile.name)
      = some (m.data_array.getD []) ∧
    (handleDecoded st m).map (fun r => r.1.users.map UserProfile.avatar)
      = some ((m.data_array.getD []).map avatarFor) ∧
    (handleDecoded st m).map (fun r => r.1.messages) = some st.messages ∧
    (handleDecoded st m).map (fun r => r.2) = some true := by
  obtain ⟨t, arr, d⟩ := m
  cases h
  simp [handleDecoded, List.map_map, Function.comp_def]

/-- Claim C6, witness: the theorem applied to Scenario A's envelope
(`dataArray = ["alice", "bob"]`) against a state with a non-empty
transcript. -/
theorem handleDecoded_users_replaces_roster_witness :
    (handleDecoded ⟨[], [⟨"alice", "hi"⟩]⟩
        ⟨MsgTypes.Users, some ["alice", "bob"], none⟩).map
        (fun r => r.1.users.map UserProfile.name) = some ["alice", "bob"] ∧
    (handleDecoded ⟨[], [⟨"alice", "hi"⟩]⟩
        ⟨MsgTypes.Users, some ["alice", "bob"], none⟩).map
        (fun r => r.1.users.map UserProfile.avatar)
      = some [avatarFor "alice", avatarFor "bob"] ∧
    (handleDecoded ⟨[], [⟨"alice", "hi"⟩]⟩
        ⟨MsgTypes.Users, some ["alice", "bob"], none⟩).map
        (fun r => r.1.messages) = some [⟨"alice", "hi"⟩] ∧
    (handleDecoded ⟨[], [⟨"alice", "hi"⟩]⟩
        ⟨MsgTypes.Users, some ["alice", "bob"], none⟩).map
        (fun r => r.2) = some true :=
  handleDecoded_users_replaces_roster ⟨[], [⟨"alice", "hi"⟩]⟩
    ⟨MsgTypes.Users, some ["alice", "bob"], none⟩ rfl

/-- Claim C7: a `message`-kind envelope whose nested `MessageData`
parses appends exactly that entry at the end of the transcript — the
prior entries and the roster unchanged — and re-renders. -/
theorem handleDecoded_message_appends (st : Chat) (m : WebSocketMessage)
    (d : String) (md : MessageData) (h : m.message_type = MsgTypes.Message)
    (hd : m.data = some d) (hparse : fromStrMD d = some md) :
    handleDecoded st m = some (⟨st.users, st.messages ++ [md]⟩, true) := by
  obtain ⟨t, arr, dd⟩ := m
  cases h
  cases hd
  simp [handleDecoded, hparse]

/-- Claim C7, witness: the theorem applied to a concrete envelope whose
nested payload parses to `⟨"bob", "yo"⟩`, against a one-entry
transcript. -/
theorem handleDecoded_message_appends_witness :
    handleDecoded ⟨[], [⟨"alice", "hi"⟩]⟩
      ⟨MsgTypes.Message, none,
        some "\x7b\"from\":\"bob\",\"message\":\"yo\"\x7d"⟩
      = some (⟨[], [⟨"alice", "hi"⟩, ⟨"bob", "yo"⟩]⟩, true) :=
  handleDecoded_message_appends ⟨[], [⟨"alice", "hi"⟩]⟩
    ⟨MsgTypes.Message, none,
      some "\x7b\"from\":\"bob\",\"message\":\"yo\"\x7d"⟩
    "\x7b\"from\":\"bob\",\"message\":\"yo\"\x7d" ⟨"bob", "yo"⟩
    rfl rfl rfl

/-- Claim C8: with the input element present holding text `t`,
`SubmitMessage` hands the outbound channel exactly one encoded envelope
that decodes back to the `Message`-kind envelope carrying `t` in
`data`, leaves the state unchanged, clears the input buffer, triggers
no re-render — and all of this independently of whether the send
succeeds. -/
theorem submitMessage_sends_one_and_clears (st : Chat) (t : String)
    (sendOk : Bool) :
    (submitMessage st (some t) sendOk).outbound.map decodeWS
      = [some ⟨MsgTypes.Message, none, some t⟩] ∧
    (submitMessage st (some t) sendOk).state = st ∧
    (submitMessage st (some t) sendOk).inputVal = some "" ∧
    (submitMessage st (some t) sendOk).rerender = false ∧
    submitMessage st (some t) sendOk = submitMessage st (some t) (!sendOk) := by
  cases sendOk <;>
    exact ⟨by simp [submitMessage, decodeWS_encodeWS], rfl, rfl, rfl, rfl⟩

/-- Claim C9: the wire-text round-trip law — `serde_json::from_str`
applied to the `serde_json::to_string` rendering of any envelope value
yields that envelope back: `decode(encode(e)) == e` over frames,
string escaping included. -/
theorem decode_encode_roundtrip (e : WebSocketMessage) :
    fromStrWS (toStringWS e) = some e := by
  simp [fromStrWS, parseJson_toStringWS, decodeWS_encodeWS]

/-- Claim C10: when the chat input `NodeRef` does not resolve to an
input element, `SubmitMessage` is a complete no-op: nothing is handed
to the outbound channel, the state is unchanged, and no re-render is
triggered. -/
theorem submitMessage_no_input_noop (st : Chat) (sendOk : Bool) :
    submitMessage st none sendOk = ⟨st, [], none, false⟩ := rfl

end YewChat
